import Mathlib

/-!
Verification of the real-time voice session orchestrator in
`src/services/liveManager.ts` (class `LiveManager`).

The embedding is shallow: times and durations are rationals, JS strings are
lists of characters, and the side effects of each handler are recorded as an
explicit list of events/effects in the order the code performs them.
-/

/-! ## Audio playback scheduler (onmessage audio branch, lines 197-206) -/

/--
One inbound audio segment as seen by the playback scheduler: the audio clock
reading `now` (`this.audioContext.currentTime`) at the moment the message is
processed, and the decoded buffer duration `d` (`buffer.duration`).
-/
structure AudioSegment where
  now : ℚ
  d : ℚ
deriving DecidableEq

/--
Start times scheduled by the audio branch of `onmessage`, starting from cursor
`c` (`this.nextStartTime`).  For each segment the code runs
`nextStartTime = max(nextStartTime, currentTime)`, calls
`source.start(nextStartTime)` and then does `nextStartTime += buffer.duration`.
-/
def playbackStarts (c : ℚ) : List AudioSegment → List ℚ
  | [] => []
  | seg :: rest => max c seg.now :: playbackStarts (max c seg.now + seg.d) rest

/-! ## Interruption handling (onmessage interruption branch, lines 209-211) -/

/-- Playback-side effects a handler may perform. -/
inductive PlayFx where
  | startSource (t : ℚ)
  | stopSource (t : ℚ)
deriving DecidableEq

/--
The playback-relevant state of a `LiveManager`: whether `this.audioContext`
is non-null (and if so its `currentTime`), the cursor `this.nextStartTime`,
and the start times of sources already started.
-/
structure PlayerState where
  audioContext : Option ℚ
  nextStartTime : ℚ
  startedAt : List ℚ
deriving DecidableEq

/--
The interruption branch of `onmessage`:
`this.nextStartTime = this.audioContext ? this.audioContext.currentTime : 0;`.
It performs no playback effect (in particular it stops no started source).
-/
def handleInterruption (s : PlayerState) : PlayerState × List PlayFx :=
  ({ s with nextStartTime := match s.audioContext with | some t => t | none => 0 }, [])

/-! ## JS string primitives used by the regex-based parsing code -/

/-- Characters matched by the JS regex class `\s` (and removed by `trim`). -/
def isJsSpace (ch : Char) : Bool :=
  ch = ' ' || ch = '\t' || ch = '\n' || ch = '\r' ||
  ch = Char.ofNat 11 || ch = Char.ofNat 12 ||
  ch = Char.ofNat 0xa0 || ch = Char.ofNat 0x1680 ||
  (0x2000 ≤ ch.toNat && ch.toNat ≤ 0x200a) ||
  ch = Char.ofNat 0x2028 || ch = Char.ofNat 0x2029 ||
  ch = Char.ofNat 0x202f || ch = Char.ofNat 0x205f ||
  ch = Char.ofNat 0x3000 || ch = Char.ofNat 0xfeff

/-- Characters matched by the JS regex `.` (anything but a line terminator). -/
def isJsDot (ch : Char) : Bool :=
  !(ch = '\n' || ch = '\r' || ch = Char.ofNat 0x2028 || ch = Char.ofNat 0x2029)

/-- ASCII lowercasing, the case folding the involved `/i` regexes perform on
the ASCII-only pattern `Asunto:`. -/
def asciiLower (ch : Char) : Char :=
  if 'A' ≤ ch && ch ≤ 'Z' then Char.ofNat (ch.toNat + 32) else ch

/-- JS `String.prototype.trim`. -/
def jsTrim (s : List Char) : List Char :=
  ((s.dropWhile isJsSpace).reverse.dropWhile isJsSpace).reverse

/-- JS `String.prototype.split('\n')`. -/
def jsSplitNl : List Char → List (List Char)
  | [] => [[]]
  | ch :: rest =>
    if ch = '\n' then [] :: jsSplitNl rest
    else
      match jsSplitNl rest with
      | [] => [[ch]]
      | l :: ls => (ch :: l) :: ls

/-! ## Email draft parsing (`generateEmailDraft`, lines 300-310) -/

/-- Whether `fullText.match(/^Asunto:\s*(.*)/i)` succeeds: the first seven
characters case-fold to the marker. -/
def matchesAsunto (s : List Char) : Bool :=
  (s.take 7).map asciiLower == "asunto:".data

/-- The capture group of `/^Asunto:\s*(.*)/i`: after the marker, `\s*`
greedily consumes whitespace (newlines included) and `(.*)` takes the rest of
that line. -/
def asuntoCapture (s : List Char) : List Char :=
  ((s.drop 7).dropWhile isJsSpace).takeWhile isJsDot

/-- `fullText.match(/^Asunto:\s*(.*)/i)`, returning the capture group. -/
def asuntoMatch (s : List Char) : Option (List Char) :=
  if matchesAsunto s then some (asuntoCapture s) else none

/-- `fullText.replace(/^Asunto:.*\n+/i, '')`: the match needs at least one
`'\n'` right after the marker line, and consumes every consecutive `'\n'`;
when the regex does not match, the text is returned unchanged. -/
def stripAsuntoLine (s : List Char) : List Char :=
  if matchesAsunto s then
    match (s.drop 7).dropWhile isJsDot with
    | c :: rest => if c = '\n' then rest.dropWhile (· = '\n') else s
    | [] => s
  else s

/-- The `EmailDraft` interface of `src/types.ts`. -/
structure EmailDraft where
  subject : List Char
  body : List Char
deriving DecidableEq

/-- The pure core of `LiveManager.generateEmailDraft`: derive subject and
body from the generated `fullText`, with the synthesized fallback subject
`Ticket <id> - Soporte <municipality>` when the marker is absent. -/
def generateEmailDraft (ticketId municipalidad fullText : List Char) : EmailDraft :=
  match asuntoMatch fullText with
  | some cap =>
      { subject := jsTrim cap, body := jsTrim (stripAsuntoLine fullText) }
  | none =>
      { subject := "Ticket ".data ++ ticketId ++ " - Soporte ".data ++ municipalidad,
        body := fullText }

/-! ## Troubleshooting tips parsing (`generateTroubleshootingTips`, 261-272) -/

/-- `line.replace(/^[-*•]\s*/, '')`: strip one leading bullet character and
the whitespace after it. -/
def stripBullet (l : List Char) : List Char :=
  match l with
  | [] => []
  | ch :: rest => if ch = '-' || ch = '*' || ch = '•' then rest.dropWhile isJsSpace else l

/-- One line of the tip text after bullet stripping and trimming. -/
def tipLine (l : List Char) : List Char := jsTrim (stripBullet l)

/-- The `steps` computed by `generateTroubleshootingTips`: split on `'\n'`,
strip bullets and trim, keep non-empty lines, take at most 3. -/
def troubleshootingSteps (text : List Char) : List (List Char) :=
  (((jsSplitNl text).map tipLine).filter (fun l => !l.isEmpty)).take 3

/-- The `SolutionData` payload of the solutions-ready event. -/
structure SolutionData where
  title : List Char
  steps : List (List Char)
deriving DecidableEq

/-- Join lines with `'\n'` separators (left inverse of `jsSplitNl` on
newline-free lines, used to quantify over multi-line generated texts). -/
def joinNl : List (List Char) → List Char
  | [] => []
  | [l] => l
  | l :: rest => l ++ '\n' :: joinNl rest

/-! ## Tool invocation dispatcher (onmessage tool-call branch, 152-193) -/

/-- The `TicketData` interface of `src/types.ts`. -/
structure TicketData where
  correo : List Char
  municipalidad : List Char
  sistema : List Char
  descripcion : List Char
  timestamp : List Char
  ticketId : List Char
deriving DecidableEq

/-- Observable actions of the dispatcher, in the order the code performs
them: UI callbacks and tool responses sent back on the remote channel. -/
inductive Event where
  | ticketCreated (t : TicketData)
  | emailReady (d : EmailDraft)
  | solutionsReady (s : SolutionData)
  | toolResponse (fcId fcName result : List Char)
  | errorEvent (msg : List Char)
deriving DecidableEq

def Event.isToolResponse : Event → Bool
  | .toolResponse _ _ _ => true
  | _ => false

def Event.isEmailReady : Event → Bool
  | .emailReady _ => true
  | _ => false

def Event.isErrorEvent : Event → Bool
  | .errorEvent _ => true
  | _ => false

/-- The arguments of a remote tool call; `none` models an absent property. -/
structure ToolArgs where
  correo : Option (List Char)
  municipalidad : Option (List Char)
  sistema : Option (List Char)
  descripcion : Option (List Char)
deriving DecidableEq

/-- JS `x || ''` on a possibly-absent string property. -/
def jsOrEmpty : Option (List Char) → List Char
  | none => []
  | some s => s

/-- `Math.floor(10000 + Math.random() * 90000)` where `q` stands for the
`Math.random()` draw. -/
def ticketNum (q : ℚ) : ℕ :=
  (Int.floor ((10000 : ℚ) + q * 90000)).toNat

/-- Decimal digit characters of a natural number, most significant first. -/
def natChars (n : ℕ) : List Char :=
  ((Nat.digits 10 n).map (fun d => Char.ofNat (48 + d))).reverse

/-- `'T-' + Math.floor(10000 + Math.random() * 90000)` (line 177). -/
def mkTicketId (q : ℚ) : List Char :=
  'T' :: '-' :: natChars (ticketNum q)

/-- The `uiTicket` record built at lines 179-186. -/
def mkUiTicket (args : ToolArgs) (timestamp ticketId : List Char) : TicketData :=
  { correo := jsOrEmpty args.correo
    municipalidad := jsOrEmpty args.municipalidad
    sistema := jsOrEmpty args.sistema
    descripcion := jsOrEmpty args.descripcion
    timestamp := timestamp
    ticketId := ticketId }

/-- The immediate acknowledgement sent for `analyzeProblem` (line 165). -/
def solutionsAck : List Char :=
  "Solutions generated and displayed on screen.".data

/-- The tool-result text of the successful draft branch (line 316). -/
def registerOkMsg (tid : List Char) : List Char :=
  "Ticket registrado exitosamente. ID del Ticket: ".data ++ tid ++
    ". Borrador de correo generado.".data

/-- The tool-result text of the failed draft branch (line 326). -/
def registerErrMsg (tid : List Char) : List Char :=
  "Error generando borrador, pero el ticket ".data ++ tid ++ " fue registrado.".data

/-- `Posibles Soluciones: <system>` (line 269). -/
def solutionsTitle (sistema : List Char) : List Char :=
  "Posibles Soluciones: ".data ++ sistema

/-- Events of the detached `generateTroubleshootingTips` task; `gen` is the
outcome of the text-generation call.  A failure is swallowed (only logged);
a success emits solutions-ready only when at least one step was parsed. -/
def generateTroubleshootingTipsEvents (sistema : List Char)
    (gen : Except Unit (List Char)) : List Event :=
  match gen with
  | .error _ => []
  | .ok text =>
      let steps := troubleshootingSteps text
      if steps.isEmpty then []
      else [Event.solutionsReady ⟨solutionsTitle sistema, steps⟩]

/-- The `analyzeProblem` branch of the dispatcher (lines 156-171): send the
generic acknowledgement at once, then run the detached tips task. -/
def analyzeProblemEvents (fcId fcName sistema : List Char)
    (gen : Except Unit (List Char)) : List Event :=
  Event.toolResponse fcId fcName solutionsAck ::
    generateTroubleshootingTipsEvents sistema gen

/-- Events of `LiveManager.generateEmailDraft` (lines 278-330): on success,
emit email-ready then send the success tool result; on failure, send only the
failure tool result. -/
def generateEmailDraftEvents (uiTicket : TicketData) (fcId fcName : List Char)
    (gen : Except Unit (List Char)) : List Event :=
  match gen with
  | .ok fullText =>
      [Event.emailReady (generateEmailDraft uiTicket.ticketId uiTicket.municipalidad fullText),
       Event.toolResponse fcId fcName (registerOkMsg uiTicket.ticketId)]
  | .error _ =>
      [Event.toolResponse fcId fcName (registerErrMsg uiTicket.ticketId)]

/-- The `registerSupportTicket` branch of the dispatcher (lines 174-192):
build the ticket, emit ticket-created, then run the email-draft step.  `q` is
the `Math.random()` draw used for the ticket identifier. -/
def registerSupportTicketEvents (args : ToolArgs) (timestamp : List Char)
    (q : ℚ) (fcId fcName : List Char) (gen : Except Unit (List Char)) : List Event :=
  let uiTicket := mkUiTicket args timestamp (mkTicketId q)
  Event.ticketCreated uiTicket :: generateEmailDraftEvents uiTicket fcId fcName gen

/-! ## Session teardown (`disconnect`, lines 332-345) -/

/-- Teardown effects `disconnect` may perform, in order: run a registered
cleanup action, disconnect the processor node, disconnect the input source,
stop a capture track, close the audio context. -/
inductive TearFx where
  | runCleanup (k : ℕ)
  | procDisconnect
  | srcDisconnect
  | trackStop (t : ℕ)
  | ctxClose
deriving DecidableEq

def TearFx.isRunCleanup : TearFx → Bool
  | .runCleanup _ => true
  | _ => false

/-- The handles `disconnect` touches: the registered cleanup actions (as
opaque tokens), the nullable processor / input source / audio context
handles, and the media stream with its tracks. -/
structure ManagerState where
  cleanupFunctions : List ℕ
  processor : Bool
  inputSource : Bool
  stream : Option (List ℕ)
  audioContext : Bool
deriving DecidableEq

/-- `LiveManager.disconnect`: run and clear every registered cleanup action,
then optional-chain disconnect/stop/close on each handle, then null them all.
Returns the new state and the effects performed, in order. -/
def disconnectRun (s : ManagerState) : ManagerState × List TearFx :=
  (⟨[], false, false, none, false⟩,
    s.cleanupFunctions.map TearFx.runCleanup
      ++ (if s.processor then [TearFx.procDisconnect] else [])
      ++ (if s.inputSource then [TearFx.srcDisconnect] else [])
      ++ (match s.stream with | some ts => ts.map TearFx.trackStop | none => [])
      ++ (if s.audioContext then [TearFx.ctxClose] else []))

/-! ## Theorems about the playback scheduler -/

theorem playbackStarts_length (segs : List AudioSegment) :
    ∀ c : ℚ, (playbackStarts c segs).length = segs.length := by
  induction segs with
  | nil => intro c; rfl
  | cons seg rest ih => intro c; simp [playbackStarts, ih]

theorem playbackStarts_head_ge (segs : List AudioSegment) :
    ∀ c x : ℚ, x ∈ (playbackStarts c segs).head? → c ≤ x := by
  cases segs with
  | nil => intro c x hx; simp [playbackStarts] at hx
  | cons seg rest =>
    intro c x hx
    simp [playbackStarts] at hx
    subst hx
    exact le_max_left _ _

theorem playbackStarts_step (segs : List AudioSegment) :
    ∀ (c : ℚ) (i : ℕ), i + 1 < segs.length →
      (playbackStarts c segs).getD i 0 + (segs.getD i ⟨0, 0⟩).d ≤
        (playbackStarts c segs).getD (i + 1) 0 := by
  induction segs with
  | nil => intro c i hi; simp at hi
  | cons seg rest ih =>
    intro c i hi
    cases i with
    | zero =>
      simp only [List.length_cons, Nat.zero_add] at hi
      have hrest : rest ≠ [] := by
        intro h
        subst h
        simp at hi
      cases rest with
      | nil => exact absurd rfl hrest
      | cons seg2 rest2 =>
        simp [playbackStarts, List.getD]
    | succ j =>
      simp only [List.length_cons, Nat.succ_lt_succ_iff] at hi
      simpa [playbackStarts, List.getD] using ih (max c seg.now + seg.d) j hi

theorem playbackStarts_chain (segs : List AudioSegment)
    (h : ∀ seg ∈ segs, 0 ≤ seg.d) :
    ∀ c : ℚ, List.Chain' (· ≤ ·) (playbackStarts c segs) := by
  intro c
  rw [List.chain'_iff_get]
  intro i hi
  have hlen := playbackStarts_length segs c
  have hi2 : i + 1 < segs.length := by omega
  have hstep := playbackStarts_step segs c i hi2
  have hid : i < segs.length := by omega
  have hd : 0 ≤ (segs.getD i ⟨0, 0⟩).d := by
    rw [List.getD_eq_getElem segs ⟨0, 0⟩ hid]
    exact h _ (segs.get_mem i hid)
  have hpi : i < (playbackStarts c segs).length := by omega
  have hpi1 : i + 1 < (playbackStarts c segs).length := by omega
  have h1 : (playbackStarts c segs).getD i 0 = (playbackStarts c segs).get ⟨i, hpi⟩ := by
    rw [List.getD_eq_getElem _ 0 hpi]
    simp
  have h2 : (playbackStarts c segs).getD (i + 1) 0 =
      (playbackStarts c segs).get ⟨i + 1, hpi1⟩ := by
    rw [List.getD_eq_getElem _ 0 hpi1]
    simp
  have hle := hstep
  rw [h1, h2] at hle
  have := le_trans (by linarith : (playbackStarts c segs).get ⟨i, hpi⟩ ≤
    (playbackStarts c segs).get ⟨i, hpi⟩ + (segs.getD i ⟨0, 0⟩).d) hle
  simpa using this

/--
Claim C1: for every sequence of inbound audio segments with nonnegative
durations processed by the playback scheduler, the scheduled start times are
pairwise non-decreasing, segment i+1 starts no earlier than segment i's start
plus segment i's duration, and one start time is scheduled per segment.
-/
theorem C1_playback_monotone (c : ℚ) (segs : List AudioSegment)
    (h : ∀ seg ∈ segs, 0 ≤ seg.d) :
    List.Pairwise (· ≤ ·) (playbackStarts c segs) ∧
    (∀ i : ℕ, i + 1 < segs.length →
      (playbackStarts c segs).getD i 0 + (segs.getD i ⟨0, 0⟩).d ≤
        (playbackStarts c segs).getD (i + 1) 0) ∧
    (playbackStarts c segs).length = segs.length := by
  refine ⟨?_, fun i hi => playbackStarts_step segs c i hi, playbackStarts_length segs c⟩
  exact List.chain'_iff_pairwise.mp (playbackStarts_chain segs h c)

/-- Witness for C1 at a concrete run: cursor 0, three segments. -/
theorem C1_playback_monotone_w :
    (∀ seg ∈ [AudioSegment.mk 0 1, AudioSegment.mk 5 2, AudioSegment.mk 3 4], 0 ≤ seg.d) ∧
    List.Pairwise (· ≤ ·)
      (playbackStarts 0 [AudioSegment.mk 0 1, AudioSegment.mk 5 2, AudioSegment.mk 3 4]) :=
  ⟨by decide, (C1_playback_monotone 0 _ (by decide)).1⟩

/-! ## Theorems about interruption handling -/

/--
Claim C2 counterexample: the claim says an interruption sets the cursor to
the current clock time and never to zero, for every session state.  In the
state where `this.audioContext` is null (after teardown, when a late message
can still arrive) and the cursor is 5, the handler's explicit `: 0` fallback
sets the cursor to the literal 0, which is not a clock reading.
-/
theorem C2_interruption_cex :
    (handleInterruption ⟨none, 5, [2]⟩).1.nextStartTime = 0 ∧ (5 : ℚ) ≠ 0 := by
  refine ⟨rfl, by norm_num⟩

/--
Claim C2 (amended): when the audio context is present, processing an
interruption sets the cursor to the current clock time (which is at most any
previously computed cursor value still in the future); the context handle and
the set of already-started segments are untouched and no playback effect (in
particular no stop) is performed.  When the context handle is null the cursor
is set to zero instead.
-/
theorem C2_interruption_resets_cursor (s : PlayerState) (t : ℚ)
    (h : s.audioContext = some t) :
    (handleInterruption s).1.nextStartTime = t ∧
    (∀ c : ℚ, t ≤ c → (handleInterruption s).1.nextStartTime ≤ c) ∧
    (handleInterruption s).1.audioContext = s.audioContext ∧
    (handleInterruption s).1.startedAt = s.startedAt ∧
    (handleInterruption s).2 = [] := by
  refine ⟨by simp [handleInterruption, h], ?_, rfl, rfl, rfl⟩
  intro c hc
  simpa [handleInterruption, h] using hc

/-- Witness for C2 at a concrete live state. -/
theorem C2_interruption_resets_cursor_w :
    (PlayerState.mk (some 3) 10 [1, 2]).audioContext = some 3 ∧
    (handleInterruption ⟨some 3, 10, [1, 2]⟩).1.nextStartTime = 3 ∧
    (handleInterruption ⟨some 3, 10, [1, 2]⟩).2 = [] :=
  ⟨rfl, (C2_interruption_resets_cursor ⟨some 3, 10, [1, 2]⟩ 3 rfl).1,
    (C2_interruption_resets_cursor ⟨some 3, 10, [1, 2]⟩ 3 rfl).2.2.2.2⟩

/-! ## Theorems about the tool invocation dispatcher -/

/--
Claim C3: for every register-ticket invocation, the ticket-created event is
the first action (emitted before the draft-generation attempt, whose outcome
cannot change it), exactly one tool result is sent, and it is the last action
of the invocation, in the success branch and in the failure branch alike.
-/
theorem C3_register_ticket_ordering (args : ToolArgs) (ts : List Char) (q : ℚ)
    (fcId fcName : List Char) (gen : Except Unit (List Char)) :
    (registerSupportTicketEvents args ts q fcId fcName gen).head? =
      some (Event.ticketCreated (mkUiTicket args ts (mkTicketId q))) ∧
    (∃ r, (registerSupportTicketEvents args ts q fcId fcName gen).getLast? =
      some (Event.toolResponse fcId fcName r)) ∧
    ((registerSupportTicketEvents args ts q fcId fcName gen).filter
      Event.isToolResponse).length = 1 := by
  cases gen with
  | ok text =>
      exact ⟨rfl, ⟨registerOkMsg (mkTicketId q), rfl⟩,
        by simp [registerSupportTicketEvents, generateEmailDraftEvents,
          Event.isToolResponse]⟩
  | error e =>
      exact ⟨rfl, ⟨registerErrMsg (mkTicketId q), rfl⟩,
        by simp [registerSupportTicketEvents, generateEmailDraftEvents,
          Event.isToolResponse]⟩

/--
Claim C4: every analyze-problem invocation sends exactly one tool result, the
generic acknowledgement, and sends it first — before the detached
tip-generation task contributes any event; no error event is ever emitted,
and on generation failure the acknowledgement is the only action (the failure
is swallowed, no second response).
-/
theorem C4_analyze_problem_single_ack (fcId fcName sistema : List Char)
    (gen : Except Unit (List Char)) :
    (analyzeProblemEvents fcId fcName sistema gen).head? =
      some (Event.toolResponse fcId fcName solutionsAck) ∧
    ((analyzeProblemEvents fcId fcName sistema gen).filter
      Event.isToolResponse).length = 1 ∧
    ((analyzeProblemEvents fcId fcName sistema gen).filter
      Event.isErrorEvent).length = 0 ∧
    analyzeProblemEvents fcId fcName sistema (Except.error ()) =
      [Event.toolResponse fcId fcName solutionsAck] := by
  refine ⟨rfl, ?_, ?_, rfl⟩ <;>
    cases gen with
    | ok text =>
        simp only [analyzeProblemEvents, generateTroubleshootingTipsEvents]
        by_cases hs : (troubleshootingSteps text).isEmpty <;>
          simp [hs, Event.isToolResponse, Event.isErrorEvent]
    | error e =>
        simp [analyzeProblemEvents, generateTroubleshootingTipsEvents,
          Event.isToolResponse, Event.isErrorEvent]

/--
Claim C8: when the email-draft generation of a register-ticket invocation
fails, the invocation still ends with a tool result whose text contains the
ticket identifier (reporting the ticket as registered despite the error), no
email-ready event is emitted, and the ticket-created event at the head is the
same record the success branch would have emitted.
-/
theorem C8_register_ticket_draft_failure (args : ToolArgs) (ts : List Char)
    (q : ℚ) (fcId fcName : List Char) :
    registerSupportTicketEvents args ts q fcId fcName (Except.error ()) =
      [Event.ticketCreated (mkUiTicket args ts (mkTicketId q)),
       Event.toolResponse fcId fcName (registerErrMsg (mkTicketId q))] ∧
    List.IsInfix (mkTicketId q) (registerErrMsg (mkTicketId q)) ∧
    (∀ e ∈ registerSupportTicketEvents args ts q fcId fcName (Except.error ()),
      Event.isEmailReady e = false) ∧
    (∀ text, (registerSupportTicketEvents args ts q fcId fcName
        (Except.ok text)).head? =
      (registerSupportTicketEvents args ts q fcId fcName
        (Except.error ())).head?) := by
  refine ⟨rfl, ?_, ?_, fun text => rfl⟩
  · exact ⟨"Error generando borrador, pero el ticket ".data,
      " fue registrado.".data, by simp [registerErrMsg]⟩
  · intro e he
    simp [registerSupportTicketEvents, generateEmailDraftEvents] at he
    rcases he with h | h <;> subst h <;> rfl

/--
Claim C10: a register-ticket invocation with a missing (or empty-string)
`correo`, `municipalidad`, `sistema` or `descripcion` argument still builds
the ticket record, carrying the empty string for that field, and still emits
the ticket-created event.
-/
theorem C10_missing_args_default_empty (args : ToolArgs) (ts : List Char)
    (q : ℚ) (fcId fcName : List Char) (gen : Except Unit (List Char)) :
    (mkUiTicket { args with correo := none } ts (mkTicketId q)).correo = [] ∧
    (mkUiTicket { args with municipalidad := none } ts (mkTicketId q)).municipalidad = [] ∧
    (mkUiTicket { args with sistema := none } ts (mkTicketId q)).sistema = [] ∧
    (mkUiTicket { args with descripcion := none } ts (mkTicketId q)).descripcion = [] ∧
    (mkUiTicket { args with correo := some [] } ts (mkTicketId q)).correo = [] ∧
    (mkUiTicket { args with municipalidad := some [] } ts (mkTicketId q)).municipalidad = [] ∧
    (mkUiTicket { args with sistema := some [] } ts (mkTicketId q)).sistema = [] ∧
    (mkUiTicket { args with descripcion := some [] } ts (mkTicketId q)).descripcion = [] ∧
    Event.ticketCreated (mkUiTicket args ts (mkTicketId q)) ∈
      registerSupportTicketEvents args ts q fcId fcName gen := by
  refine ⟨rfl, rfl, rfl, rfl, rfl, rfl, rfl, rfl, ?_⟩
  exact List.mem_cons_self _ _

/-! ## Theorems about session teardown -/

/--
Claim C7: calling disconnect twice runs the registered cleanup actions
exactly once each (during the first call, in registration order); after the
first call the cleanup list is empty and every handle (processor, input
source, media stream, audio context) is null, so the second call performs no
effect and leaves the state unchanged.
-/
theorem C7_disconnect_idempotent (s : ManagerState) :
    ((disconnectRun s).2.filter TearFx.isRunCleanup) =
      s.cleanupFunctions.map TearFx.runCleanup ∧
    (disconnectRun s).1.cleanupFunctions = [] ∧
    (disconnectRun s).1.processor = false ∧
    (disconnectRun s).1.inputSource = false ∧
    (disconnectRun s).1.stream = none ∧
    (disconnectRun s).1.audioContext = false ∧
    (disconnectRun (disconnectRun s).1).2 = [] ∧
    (disconnectRun (disconnectRun s).1).1 = (disconnectRun s).1 := by
  refine ⟨?_, rfl, rfl, rfl, rfl, rfl, rfl, rfl⟩
  have h1 : ∀ l : List ℕ,
      (l.map TearFx.runCleanup).filter TearFx.isRunCleanup = l.map TearFx.runCleanup := by
    intro l
    induction l with
    | nil => rfl
    | cons a t ih => simp [List.filter, TearFx.isRunCleanup, ih]
  have h2 : ∀ l : List ℕ,
      (l.map TearFx.trackStop).filter TearFx.isRunCleanup = [] := by
    intro l
    induction l with
    | nil => rfl
    | cons a t ih => simp [List.filter, TearFx.isRunCleanup, ih]
  cases s with
  | mk cf proc src st ctx =>
      simp only [disconnectRun, List.filter_append, h1, h2]
      cases proc <;> cases src <;> cases ctx <;> cases st <;>
        simp [TearFx.isRunCleanup, h2]

/-! ## Theorems about the ticket identifier -/

/--
Claim C9: for every value of the local random draw in [0,1), the generated
ticket identifier is the characters `T-` followed by exactly 5 decimal digit
characters (the numeric part lies in [10000, 99999]); and the identifier of
the emitted ticket is a function of the local draw alone, identical whatever
arguments the remote model supplied.
-/
theorem C9_ticket_id_format (q : ℚ) (h0 : 0 ≤ q) (h1 : q < 1) :
    (10000 ≤ ticketNum q ∧ ticketNum q < 100000) ∧
    (∃ ds, mkTicketId q = 'T' :: '-' :: ds ∧ ds.length = 5 ∧
      ∀ ch ∈ ds, ch.isDigit = true) ∧
    (∀ args1 args2 : ToolArgs, ∀ ts fcId fcName : List Char,
      ∀ gen : Except Unit (List Char),
      ∃ t1 t2 : TicketData,
        (registerSupportTicketEvents args1 ts q fcId fcName gen).head? =
          some (Event.ticketCreated t1) ∧
        (registerSupportTicketEvents args2 ts q fcId fcName gen).head? =
          some (Event.ticketCreated t2) ∧
        t1.ticketId = mkTicketId q ∧ t2.ticketId = mkTicketId q) := by
  have hb : (10000 : ℤ) ≤ Int.floor ((10000 : ℚ) + q * 90000) := by
    apply Int.le_floor.mpr
    push_cast
    nlinarith
  have hu : Int.floor ((10000 : ℚ) + q * 90000) < 100000 := by
    apply Int.floor_lt.mpr
    push_cast
    nlinarith
  have hn1 : 10000 ≤ ticketNum q := by unfold ticketNum; omega
  have hn2 : ticketNum q < 100000 := by unfold ticketNum; omega
  refine ⟨⟨hn1, hn2⟩, ⟨natChars (ticketNum q), rfl, ?_, ?_⟩, ?_⟩
  · have hne : ticketNum q ≠ 0 := by omega
    have hlen := Nat.digits_len 10 (ticketNum q) (by norm_num) hne
    have hlog : Nat.log 10 (ticketNum q) = 4 :=
      Nat.log_eq_of_pow_le_of_lt_pow (by norm_num; omega) (by norm_num; omega)
    simp [natChars, hlen, hlog]
  · intro ch hch
    simp [natChars] at hch
    obtain ⟨d, hd, rfl⟩ := hch
    have hdlt : d < 10 := Nat.digits_lt_base (by norm_num) hd
    interval_cases d <;> decide
  · intro a1 a2 ts fcId fcName gen
    exact ⟨mkUiTicket a1 ts (mkTicketId q), mkUiTicket a2 ts (mkTicketId q),
      rfl, rfl, rfl, rfl⟩

/-- Witness for C9 at the concrete draw 1/2. -/
theorem C9_ticket_id_format_w :
    (0 : ℚ) ≤ 1 / 2 ∧ (1 / 2 : ℚ) < 1 ∧
    10000 ≤ ticketNum (1 / 2) ∧ ticketNum (1 / 2) < 100000 :=
  ⟨by norm_num, by norm_num,
    (C9_ticket_id_format (1 / 2) (by norm_num) (by norm_num)).1.1,
    (C9_ticket_id_format (1 / 2) (by norm_num) (by norm_num)).1.2⟩

/-! ## Helper lemmas about the JS string primitives -/

theorem dropWhile_append_left {α : Type} (p : α → Bool) (l r : List α)
    (h : ∃ x ∈ l, p x = false) :
    (l ++ r).dropWhile p = l.dropWhile p ++ r := by
  rw [List.dropWhile_append]
  have hne0 : l.dropWhile p ≠ [] := by
    obtain ⟨x, hx, hpx⟩ := h
    rw [ne_eq, List.dropWhile_eq_nil_iff]
    push_neg
    exact ⟨x, hx, by simp [hpx]⟩
  have hne : (l.dropWhile p).isEmpty = false := by simpa using hne0
  simp [hne]

theorem dropWhile_append_all {α : Type} (p : α → Bool) (l r : List α)
    (h : ∀ x ∈ l, p x = true) :
    (l ++ r).dropWhile p = r.dropWhile p := by
  rw [List.dropWhile_append]
  have he : (l.dropWhile p).isEmpty = true := by
    simp only [List.isEmpty_eq_true, List.dropWhile_eq_nil_iff]
    exact h
  simp [he]

theorem takeWhile_all {α : Type} (p : α → Bool) (l : List α)
    (h : ∀ c ∈ l, p c = true) : l.takeWhile p = l := by
  induction l with
  | nil => rfl
  | cons a t ih =>
      simp only [List.takeWhile_cons, h a (List.mem_cons_self a t), if_pos]
      rw [ih fun c hc => h c (List.mem_cons_of_mem a hc)]

theorem takeWhile_append_all {α : Type} (p : α → Bool) (l : List α) (x : α)
    (r : List α) (hl : ∀ c ∈ l, p c = true) (hx : p x = false) :
    (l ++ x :: r).takeWhile p = l := by
  rw [List.takeWhile_append, takeWhile_all p l hl]
  simp [List.takeWhile_cons, hx]

theorem dropWhile_append_stop {α : Type} (p : α → Bool) (l : List α) (x : α)
    (r : List α) (hl : ∀ c ∈ l, p c = true) (hx : p x = false) :
    (l ++ x :: r).dropWhile p = x :: r := by
  rw [dropWhile_append_all p l (x :: r) hl]
  simp [List.dropWhile_cons, hx]

theorem dropWhile_dropWhile_of_imp {α : Type} (p q : α → Bool)
    (himp : ∀ c, q c = true → p c = true) (l : List α) :
    (l.dropWhile q).dropWhile p = l.dropWhile p := by
  induction l with
  | nil => rfl
  | cons a t ih =>
      by_cases hq : q a = true
      · simp [List.dropWhile_cons, hq, himp a hq, ih]
      · simp [List.dropWhile_cons, hq]

theorem jsTrim_dropWhile (l : List Char) :
    jsTrim (l.dropWhile isJsSpace) = jsTrim l := by
  unfold jsTrim
  rw [dropWhile_dropWhile_of_imp isJsSpace isJsSpace (fun c hc => hc)]

theorem jsSplitNl_no_nl (l : List Char) (h : '\n' ∉ l) : jsSplitNl l = [l] := by
  induction l with
  | nil => rfl
  | cons a t ih =>
      have ha : ¬(a = '\n') := fun e => h (e ▸ List.mem_cons_self a t)
      have ht : '\n' ∉ t := fun m => h (List.mem_cons_of_mem a m)
      simp only [jsSplitNl, if_neg ha, ih ht]

theorem jsSplitNl_append (l : List Char) (h : '\n' ∉ l) (rest : List Char) :
    jsSplitNl (l ++ '\n' :: rest) = l :: jsSplitNl rest := by
  induction l with
  | nil => simp [jsSplitNl]
  | cons a t ih =>
      have ha : ¬(a = '\n') := fun e => h (e ▸ List.mem_cons_self a t)
      have ht : '\n' ∉ t := fun m => h (List.mem_cons_of_mem a m)
      simp only [List.cons_append, jsSplitNl, if_neg ha]
      rw [List.append_eq, ih ht]

theorem jsSplitNl_joinNl (ls : List (List Char)) (hne : ls ≠ [])
    (h : ∀ l ∈ ls, '\n' ∉ l) :
    jsSplitNl (joinNl ls) = ls := by
  induction ls with
  | nil => cases hne rfl
  | cons l t ih =>
      cases t with
      | nil => simpa [joinNl] using jsSplitNl_no_nl l (h l (by simp))
      | cons l2 t2 =>
          have hj : joinNl (l :: l2 :: t2) = l ++ '\n' :: joinNl (l2 :: t2) := rfl
          rw [hj, jsSplitNl_append l (h l (by simp)),
            ih (by simp) (fun x hx => h x (by simp [hx]))]

/-! ## Theorems about the troubleshooting tips -/

/--
Claim C6: for every multi-line tip text (joined from newline-free lines), the
computed steps are exactly the first at-most-3 lines that are non-empty after
stripping a leading bullet marker and trimming, and the solutions-ready event
is emitted if and only if at least one such non-empty step results.
-/
theorem C6_tips_first_three (sistema : List Char) (ls : List (List Char))
    (hne : ls ≠ []) (h : ∀ l ∈ ls, '\n' ∉ l) :
    troubleshootingSteps (joinNl ls) =
      ((ls.map tipLine).filter (fun l => !l.isEmpty)).take 3 ∧
    ((∃ sol, Event.solutionsReady sol ∈
        generateTroubleshootingTipsEvents sistema (Except.ok (joinNl ls))) ↔
      ∃ l ∈ ls, tipLine l ≠ []) := by
  have hsplit := jsSplitNl_joinNl ls hne h
  have hsteps : troubleshootingSteps (joinNl ls) =
      ((ls.map tipLine).filter (fun l => !l.isEmpty)).take 3 := by
    simp [troubleshootingSteps, hsplit]
  refine ⟨hsteps, ?_⟩
  have hiff : troubleshootingSteps (joinNl ls) = [] ↔ ∀ l ∈ ls, tipLine l = [] := by
    rw [hsteps, List.take_eq_nil_iff]
    constructor
    · rintro (h3 | hf)
      · exact absurd h3 (by norm_num)
      · intro l hl
        have := List.filter_eq_nil_iff.mp hf (tipLine l) (List.mem_map_of_mem _ hl)
        simpa using this
    · intro hall
      right
      apply List.filter_eq_nil_iff.mpr
      intro a ha
      obtain ⟨l, hl, rfl⟩ := List.mem_map.mp ha
      simpa using hall l hl
  constructor
  · rintro ⟨sol, hsol⟩
    by_contra hno
    push_neg at hno
    have hz : troubleshootingSteps (joinNl ls) = [] := hiff.mpr hno
    simp [generateTroubleshootingTipsEvents, hz] at hsol
  · rintro ⟨l, hl, hl2⟩
    have hnn : troubleshootingSteps (joinNl ls) ≠ [] := fun e => hl2 (hiff.mp e l hl)
    have hf : (troubleshootingSteps (joinNl ls)).isEmpty = false := by
      simpa using hnn
    refine ⟨⟨solutionsTitle sistema, troubleshootingSteps (joinNl ls)⟩, ?_⟩
    simp [generateTroubleshootingTipsEvents, hf]

/-- Witness for C6: a five-line bulleted text keeps exactly the first three
lines, with the bullet markers stripped. -/
theorem C6_tips_first_three_w :
    ([ "- Paso uno".data, "- Paso dos".data, "- Paso tres".data,
       "- Paso cuatro".data, "- Paso cinco".data ] ≠ ([] : List (List Char))) ∧
    troubleshootingSteps (joinNl
      [ "- Paso uno".data, "- Paso dos".data, "- Paso tres".data,
        "- Paso cuatro".data, "- Paso cinco".data ]) =
      (([ "- Paso uno".data, "- Paso dos".data, "- Paso tres".data,
          "- Paso cuatro".data, "- Paso cinco".data ].map tipLine).filter
        (fun l => !l.isEmpty)).take 3 ∧
    troubleshootingSteps (joinNl
      [ "- Paso uno".data, "- Paso dos".data, "- Paso tres".data,
        "- Paso cuatro".data, "- Paso cinco".data ]) =
      [ "Paso uno".data, "Paso dos".data, "Paso tres".data ] :=
  ⟨by decide,
    (C6_tips_first_three "bodega".data _ (by decide) (by decide)).1,
    by decide⟩

/-! ## Theorems about the email draft parsing -/

theorem jsTrim_dropNl (l : List Char) :
    jsTrim (l.dropWhile (· = '\n')) = jsTrim l := by
  unfold jsTrim
  rw [dropWhile_dropWhile_of_imp isJsSpace (· = '\n')
    (fun c hc => by
      have hc2 : c = '\n' := by simpa using hc
      subst hc2; decide) l]

/--
Claim C5 counterexample: the generated text `"Asunto:\nHola"` begins with the
marker line — its first line is exactly `Asunto:`, so the remainder of that
line after the marker is empty and the claim predicts the empty subject — yet
the code's `\s*` crosses the newline and produces the subject `"Hola"`.
-/
theorem C5_email_draft_parsing_cex :
    "Asunto:\nHola".data.takeWhile isJsDot = "Asunto:".data ∧
    ("Asunto:\nHola".data.takeWhile isJsDot).drop 7 = [] ∧
    (generateEmailDraft "T-12345".data "ExampleCity".data
      "Asunto:\nHola".data).subject = "Hola".data ∧
    "Hola".data ≠ ([] : List Char) := by
  refine ⟨by decide, by decide, by decide, by decide⟩

/--
Claim C5 (amended): for generated text of the shape marker, subject line,
newline, body — where the subject line holds no line terminator and at least
one non-whitespace character — the draft subject is the subject line trimmed
and the draft body is the remaining text trimmed (when the whitespace right
after the marker reaches across the line break, or no newline terminates the
marker line, the code deviates from the simple reading, hence the
restriction).  When the marker is absent the subject falls back to
`Ticket <id> - Soporte <municipality>` and the body is the full text.
-/
theorem C5_email_draft_parsing (tid muni line rest : List Char)
    (h1 : ∀ ch ∈ line, isJsDot ch = true)
    (h2 : ∃ ch ∈ line, isJsSpace ch = false) :
    generateEmailDraft tid muni ("Asunto:".data ++ (line ++ '\n' :: rest)) =
      ⟨jsTrim line, jsTrim rest⟩ ∧
    (∀ text : List Char, matchesAsunto text = false →
      generateEmailDraft tid muni text =
        ⟨"Ticket ".data ++ tid ++ " - Soporte ".data ++ muni, text⟩) := by
  have hlen : "Asunto:".data.length = 7 := by decide
  have ht : ("Asunto:".data ++ (line ++ '\n' :: rest)).take 7 = "Asunto:".data :=
    List.take_left' hlen
  have hd : ("Asunto:".data ++ (line ++ '\n' :: rest)).drop 7 = line ++ '\n' :: rest :=
    List.drop_left' hlen
  have hm : matchesAsunto ("Asunto:".data ++ (line ++ '\n' :: rest)) = true := by
    unfold matchesAsunto
    rw [ht]
    decide
  have hcap : asuntoCapture ("Asunto:".data ++ (line ++ '\n' :: rest)) =
      line.dropWhile isJsSpace := by
    unfold asuntoCapture
    rw [hd, dropWhile_append_left isJsSpace line ('\n' :: rest) h2]
    exact takeWhile_append_all isJsDot (line.dropWhile isJsSpace) '\n' rest
      (fun c hc => h1 c ((List.dropWhile_sublist isJsSpace).subset hc))
      (by decide)
  have hmatch : asuntoMatch ("Asunto:".data ++ (line ++ '\n' :: rest)) =
      some (line.dropWhile isJsSpace) := by
    unfold asuntoMatch
    rw [hm, hcap]
    rfl
  have hstrip : stripAsuntoLine ("Asunto:".data ++ (line ++ '\n' :: rest)) =
      rest.dropWhile (· = '\n') := by
    unfold stripAsuntoLine
    rw [hm, hd, dropWhile_append_stop isJsDot line '\n' rest h1 (by decide)]
    simp
  have hdraft : generateEmailDraft tid muni ("Asunto:".data ++ (line ++ '\n' :: rest)) =
      ⟨jsTrim (line.dropWhile isJsSpace), jsTrim (rest.dropWhile (· = '\n'))⟩ := by
    unfold generateEmailDraft
    rw [hmatch, hstrip]
  constructor
  · rw [hdraft, jsTrim_dropWhile, jsTrim_dropNl]
  · intro text hmf
    unfold generateEmailDraft asuntoMatch
    rw [hmf]
    rfl

/-- Witness for C5 at the spec's concrete example text. -/
theorem C5_email_draft_parsing_w :
    (∀ ch ∈ " Falla en módulo".data, isJsDot ch = true) ∧
    (∃ ch ∈ " Falla en módulo".data, isJsSpace ch = false) ∧
    generateEmailDraft "T-12345".data "ExampleCity".data
        ("Asunto:".data ++ (" Falla en módulo".data ++ '\n' :: "Estimado equipo,".data)) =
      ⟨jsTrim " Falla en módulo".data, jsTrim "Estimado equipo,".data⟩ ∧
    jsTrim " Falla en módulo".data = "Falla en módulo".data :=
  ⟨by decide, by decide,
    (C5_email_draft_parsing "T-12345".data "ExampleCity".data
      " Falla en módulo".data "Estimado equipo,".data (by decide) (by decide)).1,
    by decide⟩
